import Mathlib

/-!
Verification of the keyword classification and extraction/formatting
pipeline of `medical_ai` (source file `src/medical/ai.py`).

The Python source is shallowly embedded: titles and URLs are `String`s,
Python's substring test `needle in haystack` becomes an infix test on the
underlying character lists, `str.startswith` becomes a prefix test,
`str.upper` / `str.lower` / `str.capitalize` act characterwise via
`Char.toUpper` / `Char.toLower` (all keyword and conference data is ASCII,
where the Python and Lean character maps agree), the stateful extraction
loop of `parse` becomes a fold over an explicit state, and the query
resolution loop of `search` becomes a fold that accumulates both the
resolved queries and the printed diagnostic lines.
-/

namespace MedicalAI

open scoped List

/-- Python `needle in haystack` (substring containment) on strings. -/
def strContains (needle haystack : String) : Bool :=
  decide (needle.data <:+: haystack.data)

/-- Python `s.startswith(pre)` on strings. -/
def strStartsWith (s pre : String) : Bool :=
  decide (pre.data <+: s.data)

/-- Python `s.lower()` (characterwise; agrees with Python on ASCII data). -/
def pyLower (s : String) : String :=
  ⟨s.data.map Char.toLower⟩

/-- Python `s.upper()` (characterwise; agrees with Python on ASCII data). -/
def pyUpper (s : String) : String :=
  ⟨s.data.map Char.toUpper⟩

/-- Python `s.capitalize()`: first character upper-cased, all remaining
characters lower-cased (this is what CPython does, for ASCII data). -/
def pyCapitalize (s : String) : String :=
  match s.data with
  | [] => ""
  | c :: cs => ⟨Char.toUpper c :: cs.map Char.toLower⟩

/-- The keyword stem list of `title_is_medical` (src/medical/ai.py lines 15-18). -/
def keywords : List String :=
  ["medic", "biomedic", "bioMedic", "health", "clinic", "EHR", "MeSH", "RCT",
   "life", "care", "pharm", "food-drug", "drug", "surg",
   "emergency", "ICU", "hospital", "patient", "doctor", "disease", "illness",
   "symptom", "treatment",
   "cancer", "psycholog", "psychiat", "mental", "radiol", "patho", "autopsy",
   "x-ray", "x-Ray", "mammogr", "CT", "MRI", "radiograph", "tomograph",
   "magnetic"]

/-- The three casing variants tried for one keyword stem:
`(keyword, keyword.upper(), keyword.capitalize())` (line 21). -/
def variants (keyword : String) : List String :=
  [keyword, pyUpper keyword, pyCapitalize keyword]

/-- The per-variant match test of line 22:
`((' ' + kw) in title) or title.startswith(kw)`. -/
def kwMatch (kw title : String) : Bool :=
  strContains (" " ++ kw) title || strStartsWith title kw

/-- The classifier `title_is_medical` (src/medical/ai.py lines 14-27): return
`true` on the first keyword variant that matches, `false` when none does. -/
def title_is_medical (title : String) : Bool :=
  keywords.any (fun keyword => (variants keyword).any (fun kw => kwMatch kw title))

/- Auxiliary facts about the matching primitives. -/

theorem strContains_of_space (v title : String)
    (h : strContains (" " ++ v) title = true) : strContains v title = true := by
  unfold strContains at h ⊢
  rw [decide_eq_true_iff] at h ⊢
  have hdata : (" " ++ v).data = ' ' :: v.data := by
    rw [String.data_append]
    rfl
  rw [hdata] at h
  exact ((List.suffix_cons ' ' v.data).isInfix).trans h

theorem strContains_of_startsWith (v title : String)
    (h : strStartsWith title v = true) : strContains v title = true := by
  unfold strStartsWith at h
  unfold strContains
  rw [decide_eq_true_iff] at h ⊢
  exact h.isInfix

/-- C1: a title containing a listed stem preceded by a space, or beginning
with a listed stem, is classified medical; a title in which no casing
variant of any stem occurs as a substring at all is classified non-medical. -/
theorem title_is_medical_stem_characterization (title : String) :
    ((∃ kw, kw ∈ keywords ∧
        (strContains (" " ++ kw) title = true ∨ strStartsWith title kw = true)) →
      title_is_medical title = true) ∧
    ((∀ kw ∈ keywords, ∀ v ∈ variants kw, strContains v title = false) →
      title_is_medical title = false) := by
  constructor
  · rintro ⟨kw, hkw, hmatch⟩
    unfold title_is_medical
    rw [List.any_eq_true]
    refine ⟨kw, hkw, ?_⟩
    rw [List.any_eq_true]
    refine ⟨kw, ?_, ?_⟩
    · unfold variants
      exact List.mem_cons_self kw _
    · unfold kwMatch
      rw [Bool.or_eq_true]
      exact hmatch
  · intro h
    unfold title_is_medical
    simp only [List.any_eq_false, Bool.not_eq_true]
    intro kw hkw v hv
    have hnone : strContains v title = false := h kw hkw v hv
    unfold kwMatch
    rw [Bool.or_eq_false_iff]
    constructor
    · cases hs : strContains (" " ++ v) title with
      | false => rfl
      | true => rw [strContains_of_space v title hs] at hnone; exact hnone
    · cases hs : strStartsWith title v with
      | false => rfl
      | true => rw [strContains_of_startsWith v title hs] at hnone; exact hnone

/-- Witness for C1 at concrete titles: "clinic trial" begins with the stem
"clinic" and is accepted; "zzz" contains no stem variant and is rejected. -/
theorem title_is_medical_stem_characterization_witness :
    title_is_medical "clinic trial" = true ∧ title_is_medical "zzz" = false :=
  ⟨(title_is_medical_stem_characterization "clinic trial").1
      ⟨"clinic", by decide, Or.inr (by decide)⟩,
   (title_is_medical_stem_characterization "zzz").2 (by decide)⟩

/- Claim C2 speaks of a capitalized variant whose first letter is upper-cased
and whose remaining characters are UNCHANGED.  The following definition is
modelled from those words of the spec, to be compared with `pyCapitalize`
(which, like CPython's `str.capitalize`, lower-cases the rest). -/

/-- Capitalization as claimed by the spec: first letter upper-cased, the rest
of the characters unchanged. -/
def specCapitalize (s : String) : String :=
  match s.data with
  | [] => ""
  | c :: cs => ⟨Char.toUpper c :: cs⟩

/-- The classifier as claim C2 describes it: three variants per stem, the
capitalized variant leaving the stem's tail unchanged. -/
def title_is_medical_claimed (title : String) : Bool :=
  keywords.any (fun keyword =>
    [keyword, pyUpper keyword, specCapitalize keyword].any
      (fun kw => kwMatch kw title))

/-- Counterexample to C2 as stated: on the title "Mesh networks" the code
returns true (Python capitalizes the stem "MeSH" to "Mesh", which the title
starts with), while a classifier using the claimed rest-unchanged
capitalization (variants "MeSH", "MESH", "MeSH") returns false. -/
theorem title_is_medical_capitalize_counterexample :
    title_is_medical "Mesh networks" = true ∧
      title_is_medical_claimed "Mesh networks" = false :=
  ⟨by decide, by decide⟩

/-- C2 (amended): the classifier accepts a title exactly when some stem has a
casing variant — the stem as-is, fully upper-cased, or capitalized with the
first letter upper-cased and the REST LOWER-CASED (Python `str.capitalize`) —
that occurs space-preceded in the title or that the title starts with. -/
theorem title_is_medical_three_variants (title : String) :
    title_is_medical title = true ↔
      ∃ kw, kw ∈ keywords ∧ ∃ v, v ∈ [kw, pyUpper kw, pyCapitalize kw] ∧
        (strContains (" " ++ v) title = true ∨ strStartsWith title v = true) := by
  unfold title_is_medical variants kwMatch
  simp only [List.any_eq_true, Bool.or_eq_true]

/- Claim C10: prepending a single space never changes the verdict. -/

theorem list_any_congr {α : Type} {l : List α} {f g : α → Bool}
    (h : ∀ x ∈ l, f x = g x) : l.any f = l.any g := by
  induction l with
  | nil => rfl
  | cons x xs ih =>
      rw [List.any_cons, List.any_cons, h x (List.mem_cons_self x xs),
        ih (fun y hy => h y (List.mem_cons_of_mem x hy))]

/-- Every casing variant of every listed stem is nonempty and does not begin
with a space character. -/
theorem variants_wf :
    ∀ kw ∈ keywords, ∀ v ∈ variants kw,
      v.data ≠ [] ∧ v.data.head? ≠ some ' ' := by decide

/-- For a nonempty pattern not beginning with a space, the two match rules
are unaffected by prepending one space to the title. -/
theorem kwMatch_space (v t : String) (hne : v.data ≠ [])
    (hhead : v.data.head? ≠ some ' ') :
    kwMatch v (" " ++ t) = kwMatch v t := by
  obtain ⟨c, vs, hv⟩ : ∃ c vs, v.data = c :: vs := by
    cases hd : v.data with
    | nil => exact absurd hd hne
    | cons c vs => exact ⟨c, vs, rfl⟩
  have hc : c ≠ ' ' := by
    intro h
    rw [hv, h] at hhead
    exact hhead rfl
  rw [Bool.eq_iff_iff]
  unfold kwMatch strContains strStartsWith
  have hdatat : (" " ++ t).data = ' ' :: t.data := by
    rw [String.data_append]; rfl
  have hdatav : (" " ++ v).data = ' ' :: v.data := by
    rw [String.data_append]; rfl
  rw [hdatat, hdatav, hv]
  simp only [Bool.or_eq_true, decide_eq_true_iff]
  constructor
  · rintro (hinf | hpre)
    · rcases List.infix_cons_iff.mp hinf with hp | hi
      · rw [List.cons_prefix_cons] at hp
        exact Or.inr hp.2
      · exact Or.inl hi
    · rw [List.cons_prefix_cons] at hpre
      exact absurd hpre.1 hc
  · rintro (hinf | hpre)
    · exact Or.inl (List.infix_cons hinf)
    · exact Or.inl (List.IsPrefix.isInfix (List.cons_prefix_cons.mpr ⟨rfl, hpre⟩))

/-- C10: prepending a single space to a title never changes the classifier's
verdict. -/
theorem title_is_medical_space_prepend (t : String) :
    title_is_medical (" " ++ t) = title_is_medical t := by
  unfold title_is_medical
  apply list_any_congr
  intro kw hkw
  apply list_any_congr
  intro v hv
  exact kwMatch_space v t (variants_wf kw hkw v hv).1 (variants_wf kw hkw v hv).2

/- The extraction loop of `parse` (src/medical/ai.py lines 175-207).  A
source node is modelled by its visible text (Python `tag.getText()`) and its
link attribute (Python `tag.attrs['href']`); the per-source URL extractor is
a parameter, as in the source's `url_getter` dispatch table. -/

/-- A matched markup element: visible text and link attribute. -/
structure Tag where
  text : String
  href : String

/-- A collected record (the `Article` fields populated by `parse`; `author`
and `abstract` are never set on this path and are omitted). -/
structure Article where
  title : String
  url : String
  conference : String
  year : String

/-- The loop state of `parse`: `prev_title`, `n_total`, `articles`. -/
structure ParseState where
  prevTitle : String
  nTotal : Nat
  articles : List Article

/-- The `url_getter['aclweb']` extractor (line 179): derive a URL only when
the link attribute starts with the paper prefix `/anthology/paper`. -/
def url_getter_aclweb (tag : Tag) : Option String :=
  if strStartsWith tag.href "/anthology/paper" then
    some ("https://aclweb.org" ++ tag.href)
  else none

/-- One iteration of the extraction loop (lines 191-203): a title equal to
the previous one is skipped entirely; otherwise the total counter and the
previous-title tracker advance, and when the classifier accepts (or the
include-all flag is set) and the extractor yields a URL, a record is
appended. -/
def parseStep (getter : Tag → Option String) (allFlag : Bool) (conf yr : String)
    (s : ParseState) (tag : Tag) : ParseState :=
  if tag.text ≠ s.prevTitle then
    if allFlag || title_is_medical tag.text then
      match getter tag with
      | none => ⟨tag.text, s.nTotal + 1, s.articles⟩
      | some u => ⟨tag.text, s.nTotal + 1, s.articles ++ [⟨tag.text, u, conf, yr⟩]⟩
    else ⟨tag.text, s.nTotal + 1, s.articles⟩
  else s

/-- The extraction loop over all selected nodes, from the initial state
`prev_title = ''`, `n_total = 0`, `articles = []`. -/
def parseTags (getter : Tag → Option String) (allFlag : Bool) (conf yr : String)
    (tags : List Tag) : ParseState :=
  tags.foldl (parseStep getter allFlag conf yr) ⟨"", 0, []⟩

/-- Titles kept by consecutive deduplication when the previous title starts
out as `prev`: mirrors how `prev_title` evolves in the loop. -/
def dedupConsec : String → List String → List String
  | _, [] => []
  | prev, t :: ts => if t = prev then dedupConsec prev ts else t :: dedupConsec t ts

/-- The number of runs of consecutive equal titles in a title sequence. -/
def runCount : List String → Nat
  | [] => 0
  | t :: ts => (dedupConsec t ts).length + 1

theorem dedupConsec_cons (prev t : String) (ts : List String) :
    dedupConsec prev (t :: ts)
      = if t = prev then dedupConsec prev ts else t :: dedupConsec t ts := rfl

theorem parseStep_of_eq (getter : Tag → Option String) (allFlag : Bool)
    (conf yr : String) (s : ParseState) (tag : Tag) (h : tag.text = s.prevTitle) :
    parseStep getter allFlag conf yr s tag = s := by
  unfold parseStep
  rw [if_neg (fun hne => hne h)]

theorem parseStep_of_ne (getter : Tag → Option String) (allFlag : Bool)
    (conf yr : String) (s : ParseState) (tag : Tag) (h : tag.text ≠ s.prevTitle) :
    (parseStep getter allFlag conf yr s tag).prevTitle = tag.text
      ∧ (parseStep getter allFlag conf yr s tag).nTotal = s.nTotal + 1
      ∧ ∃ l, (parseStep getter allFlag conf yr s tag).articles = s.articles ++ l
          ∧ l.map Article.title <+ [tag.text] := by
  unfold parseStep
  rw [if_pos h]
  by_cases h2 : (allFlag || title_is_medical tag.text) = true
  · rw [if_pos h2]
    cases hg : getter tag with
    | none => exact ⟨rfl, rfl, [], (List.append_nil _).symm, List.nil_sublist _⟩
    | some u =>
        exact ⟨rfl, rfl, [⟨tag.text, u, conf, yr⟩], rfl, List.Sublist.refl _⟩
  · rw [if_neg h2]
    exact ⟨rfl, rfl, [], (List.append_nil _).symm, List.nil_sublist _⟩

/-- Fold invariant of the extraction loop: from any state, the counter grows
by the number of kept (consecutively deduplicated) titles, and the appended
records' titles form a subsequence of those kept titles. -/
theorem parseTags_go (getter : Tag → Option String) (allFlag : Bool)
    (conf yr : String) :
    ∀ (tags : List Tag) (s : ParseState),
      (tags.foldl (parseStep getter allFlag conf yr) s).nTotal
          = s.nTotal + (dedupConsec s.prevTitle (tags.map Tag.text)).length
        ∧ ∃ l, (tags.foldl (parseStep getter allFlag conf yr) s).articles
              = s.articles ++ l
            ∧ l.map Article.title <+ dedupConsec s.prevTitle (tags.map Tag.text) := by
  intro tags
  induction tags with
  | nil =>
      intro s
      exact ⟨(Nat.add_zero _).symm, [], (List.append_nil _).symm, List.nil_sublist _⟩
  | cons t ts ih =>
      intro s
      rw [List.foldl_cons, List.map_cons]
      by_cases h : t.text = s.prevTitle
      · rw [parseStep_of_eq getter allFlag conf yr s t h, dedupConsec_cons,
          if_pos h]
        exact ih s
      · obtain ⟨hprev, hn, l₁, harts, hsub₁⟩ :=
          parseStep_of_ne getter allFlag conf yr s t h
        obtain ⟨ihn, l₂, iharts, hsub₂⟩ := ih (parseStep getter allFlag conf yr s t)
        rw [dedupConsec_cons, if_neg h]
        constructor
        · rw [ihn, hprev, hn, List.length_cons]
          omega
        · refine ⟨l₁ ++ l₂, ?_, ?_⟩
          · rw [iharts, harts, List.append_assoc]
          · rw [List.map_append]
            have : [t.text] ++ dedupConsec t.text (ts.map Tag.text)
                = t.text :: dedupConsec t.text (ts.map Tag.text) := rfl
            rw [← this]
            rw [hprev] at hsub₂
            exact hsub₁.append hsub₂

/-- Counterexample to C3 as stated: a single source node whose title is the
empty string forms one run of consecutive equal titles, yet it contributes no
increment to the total-seen counter, because the previous-title tracker is
initialized to the empty string. -/
theorem parse_empty_title_run_counterexample :
    (parseTags (fun tag => some tag.href) true "acl" "2019"
        [Tag.mk "" "u"]).nTotal = 0
      ∧ runCount ([Tag.mk "" "u"].map Tag.text) = 1 := by
  constructor <;> decide

/-- C3 (amended): within one query, records are produced in markup discovery
order as a subsequence of the consecutively-deduplicated titles (so
consecutive duplicate titles never yield duplicate records); each run of
consecutive equal titles adds exactly one to the total-seen counter, except
that a leading run of empty-string titles adds nothing (the previous-title
tracker starts as the empty string); node titles [A, A, B] yield total-seen
= 2 and at most 2 records. -/
theorem parse_dedup_invariant (getter : Tag → Option String) (allFlag : Bool)
    (conf yr : String) (tags : List Tag) :
    (parseTags getter allFlag conf yr tags).nTotal
        = (dedupConsec "" (tags.map Tag.text)).length
      ∧ (parseTags getter allFlag conf yr tags).articles.map Article.title
          <+ dedupConsec "" (tags.map Tag.text)
      ∧ (parseTags (fun tag => some tag.href) true "acl" "2019"
            [Tag.mk "A" "u1", Tag.mk "A" "u2", Tag.mk "B" "u3"]).nTotal = 2
      ∧ (parseTags (fun tag => some tag.href) true "acl" "2019"
            [Tag.mk "A" "u1", Tag.mk "A" "u2", Tag.mk "B" "u3"]).articles.length
          ≤ 2 := by
  obtain ⟨hn, l, harts, hsub⟩ :=
    parseTags_go getter allFlag conf yr tags ⟨"", 0, []⟩
  have hn' : (parseTags getter allFlag conf yr tags).nTotal
      = (dedupConsec "" (tags.map Tag.text)).length := by
    rw [parseTags, hn]
    exact Nat.zero_add _
  have harts' : (parseTags getter allFlag conf yr tags).articles = l := by
    rw [parseTags, harts]
    exact List.nil_append _
  exact ⟨hn', by rw [harts']; exact hsub, by decide, by decide⟩

/-- C8: for Profile A (aclweb), the extractor returns a URL exactly when the
element's link attribute starts with the recognized paper prefix
`/anthology/paper`; and a matched element whose extraction yields no URL
produces no record — the loop state keeps its record list, no error is
raised, and later elements are processed as usual. -/
theorem url_getter_aclweb_skip (tag : Tag) (allFlag : Bool) (conf yr : String)
    (s : ParseState) :
    ((url_getter_aclweb tag).isSome = strStartsWith tag.href "/anthology/paper")
      ∧ (url_getter_aclweb tag = none →
          (parseStep url_getter_aclweb allFlag conf yr s tag).articles
            = s.articles) := by
  constructor
  · unfold url_getter_aclweb
    cases h : strStartsWith tag.href "/anthology/paper" with
    | true => rfl
    | false => rfl
  · intro hnone
    unfold parseStep
    by_cases h1 : tag.text ≠ s.prevTitle
    · rw [if_pos h1]
      by_cases h2 : (allFlag || title_is_medical tag.text) = true
      · rw [if_pos h2, hnone]
      · rw [if_neg h2]
    · rw [if_neg h1]

/-- Witness for C8: a link attribute "/other" does not carry the paper
prefix, the extractor yields no URL, and the element leaves the record list
empty. -/
theorem url_getter_aclweb_skip_witness :
    (parseStep url_getter_aclweb false "acl" "2019" ⟨"", 0, []⟩
        (Tag.mk "medic title" "/other")).articles = [] :=
  (url_getter_aclweb_skip (Tag.mk "medic title" "/other") false "acl" "2019"
    ⟨"", 0, []⟩).2 (by decide)

/-- Counterexample to C9 as stated: with include-all set and derivable URLs,
node titles ["", B, ""] instantiate the claimed pattern [A, B, A] at A = "",
yet the leading empty title is absorbed by the previous-title tracker (which
is initialized to the empty string): total-seen reaches only 2, not 3, and
only one record with title "" is produced, not two. -/
theorem parse_nonconsecutive_empty_counterexample :
    (parseTags (fun tag => some tag.href) true "acl" "2019"
        [Tag.mk "" "u", Tag.mk "B" "v", Tag.mk "" "w"]).nTotal = 2
      ∧ ((parseTags (fun tag => some tag.href) true "acl" "2019"
          [Tag.mk "" "u", Tag.mk "B" "v", Tag.mk "" "w"]).articles.filter
            (fun a => a.title == "")).length = 1 := by
  constructor <;> decide

/-- C9 (amended): deduplication applies only to consecutive repeats: with
include-all set and derivable URLs, node titles [A, B, A] with A nonempty
and different from B give total-seen = 3 and two separate records with
title A (a leading empty-string A is instead absorbed by the
previous-title tracker, which starts as the empty string). -/
theorem parse_nonconsecutive_duplicates (A B u v w : String)
    (hA : A ≠ "") (hAB : A ≠ B) :
    (parseTags (fun tag => some tag.href) true "acl" "2019"
        [Tag.mk A u, Tag.mk B v, Tag.mk A w]).nTotal = 3
      ∧ (parseTags (fun tag => some tag.href) true "acl" "2019"
          [Tag.mk A u, Tag.mk B v, Tag.mk A w]).articles.map Article.title
        = [A, B, A]
      ∧ ((parseTags (fun tag => some tag.href) true "acl" "2019"
          [Tag.mk A u, Tag.mk B v, Tag.mk A w]).articles.filter
            (fun a => a.title == A)).length = 2 := by
  have hBA : B ≠ A := fun hc => hAB hc.symm
  unfold parseTags parseStep
  simp [hA, hAB, hBA]

/-- Witness for C9 at A = "A", B = "B". -/
theorem parse_nonconsecutive_duplicates_witness :
    (parseTags (fun tag => some tag.href) true "acl" "2019"
        [Tag.mk "A" "u", Tag.mk "B" "v", Tag.mk "A" "w"]).nTotal = 3
      ∧ (parseTags (fun tag => some tag.href) true "acl" "2019"
          [Tag.mk "A" "u", Tag.mk "B" "v", Tag.mk "A" "w"]).articles.map
            Article.title = ["A", "B", "A"] :=
  ⟨(parse_nonconsecutive_duplicates "A" "B" "u" "v" "w" (by decide) (by decide)).1,
   (parse_nonconsecutive_duplicates "A" "B" "u" "v" "w" (by decide)
      (by decide)).2.1⟩

/- Query resolution in `search` (src/medical/ai.py lines 67-158): the
conference catalog, the per-source URL templates, the Query record, and the
cross-product loop that resolves each (conference, year) pair and prints a
diagnostic on an unknown conference name instead of raising. -/

/-- The NLP conference list of the catalog (lines 92-95). -/
def confsNLP : List String :=
  ["acl", "anlp", "cl", "conll", "eacl", "emnlp", "naacl",
   "semeval", "tacl", "ws", "alta", "coling", "hlt",
   "ijcnlp", "jep-taln-recital", "lrec", "muc", "paclic", "ranlp",
   "rocling-ijclclp", "tinlap", "tipster"]

/-- The ML conference list of the catalog (line 96). -/
def confsML : List String := ["nips", "icml", "iclr", "ijcnn", "ijcai"]

/-- The CV conference list of the catalog (line 97). -/
def confsCV : List String := ["cvpr", "iccv"]

/-- The `sources` mapping (lines 99-106): NLP conferences map to source tag
"aclweb", ML and CV conferences to "dblp". -/
def sourcesMap : List (String × String) :=
  confsNLP.map (fun c => (c, "aclweb"))
    ++ confsML.map (fun c => (c, "dblp"))
    ++ confsCV.map (fun c => (c, "dblp"))

/-- Dictionary lookup `sources[conf]` as an `Option`. -/
def sourceOf (conf : String) : Option String :=
  (sourcesMap.find? (fun p => p.1 == conf)).map (fun p => p.2)

/-- The `url_container` templates (lines 108-109), instantiated at
(conference, year); `none` for a tag outside the two known sources. -/
def urlFor (source conf yr : String) : Option String :=
  if source = "aclweb" then
    some ("https://aclweb.org/anthology/events/" ++ conf ++ "-" ++ yr)
  else if source = "dblp" then
    some ("https://dblp.org/db/conf/" ++ conf ++ "/" ++ conf ++ yr ++ ".html")
  else none

/-- A resolved query (the `Query` class, lines 111-119): case-folded
conference id, stringified year, resolved source tag and listing URL. -/
structure Query where
  conference : String
  year : String
  source : String
  url : String
deriving DecidableEq

/-- Resolution of one (conference, year) pair (lines 130-137): case-fold the
conference name, look it up in the catalog, and build the listing URL;
`none` models the caught `KeyError`. -/
def resolve1 (c : String) (y : Nat) : Option Query :=
  match sourceOf (pyLower c) with
  | none => none
  | some src =>
      match urlFor src (pyLower c) (toString y) with
      | none => none
      | some u => some ⟨pyLower c, toString y, src, u⟩

/-- The separator line `'=' * 35`. -/
def seps : String := ⟨List.replicate 35 '='⟩

/-- The diagnostic lines printed for an unknown conference name (lines
139-146): the error line, then the valid ids grouped by category. -/
def errLines (conf : String) : List String :=
  ["Error: unavailable conference '" ++ conf ++ "'.",
   seps,
   "Available conferences:",
   "\tML, AI:\n\t\t" ++ String.intercalate ", " confsML,
   "\tCV:\n\t\t" ++ String.intercalate ", " confsCV,
   "\tNLP:\n\t\t" ++ String.intercalate ", " confsNLP,
   seps]

/-- One iteration of the resolution loop: append the resolved query, or
append the diagnostic lines and keep going. -/
def resolveStep (acc : List Query × List String) (p : String × Nat) :
    List Query × List String :=
  match resolve1 p.1 p.2 with
  | some q => (acc.1 ++ [q], acc.2)
  | none => (acc.1, acc.2 ++ errLines (pyLower p.1))

/-- The resolution loop over the cross product (conference outer loop, year
inner loop), collecting resolved queries and printed diagnostic lines. -/
def resolveAll (conference : List String) (year : List Nat) :
    List Query × List String :=
  (conference.flatMap (fun c => year.map (fun y => (c, y)))).foldl
    resolveStep ([], [])

/-- The final query sequence the fetch loop (lines 150-158) iterates over. -/
def resolveQueries (conference : List String) (year : List Nat) : List Query :=
  (resolveAll conference year).1

theorem resolveStep_fst_none (acc : List Query × List String) (p : String × Nat)
    (h : resolve1 p.1 p.2 = none) : (resolveStep acc p).1 = acc.1 := by
  unfold resolveStep
  rw [h]

theorem resolveStep_fst_some (acc : List Query × List String) (p : String × Nat)
    (q : Query) (h : resolve1 p.1 p.2 = some q) :
    (resolveStep acc p).1 = acc.1 ++ [q] := by
  unfold resolveStep
  rw [h]

/-- The queries accumulated by the resolution loop are exactly the
successfully resolved pairs, in order. -/
theorem resolveAll_go (ps : List (String × Nat)) :
    ∀ acc : List Query × List String,
      (ps.foldl resolveStep acc).1
        = acc.1 ++ ps.filterMap (fun p => resolve1 p.1 p.2) := by
  induction ps with
  | nil => intro acc; exact (List.append_nil _).symm
  | cons p ps ih =>
      intro acc
      rw [List.foldl_cons, ih]
      cases hr : resolve1 p.1 p.2 with
      | none =>
          rw [@List.filterMap_cons_none (String × Nat) Query
            (fun p => resolve1 p.1 p.2) p ps hr, resolveStep_fst_none acc p hr]
      | some q =>
          rw [@List.filterMap_cons_some (String × Nat) Query
              (fun p => resolve1 p.1 p.2) p ps q hr,
            resolveStep_fst_some acc p q hr, List.append_assoc]
          rfl

theorem resolveQueries_eq_filterMap (conference : List String) (year : List Nat) :
    resolveQueries conference year
      = (conference.flatMap (fun c => year.map (fun y => (c, y)))).filterMap
          (fun p => resolve1 p.1 p.2) := by
  unfold resolveQueries resolveAll
  rw [resolveAll_go]
  exact List.nil_append _

theorem resolve1_eq_none (c : String) (y : Nat)
    (h : sourceOf (pyLower c) = none) : resolve1 c y = none := by
  unfold resolve1
  rw [h]

/-- Every value stored in the source catalog is one of the two source tags. -/
theorem sourceOf_mem (conf src : String) (h : sourceOf conf = some src) :
    src = "aclweb" ∨ src = "dblp" := by
  unfold sourceOf at h
  cases hf : sourcesMap.find? (fun p => p.1 == conf) with
  | none => rw [hf] at h; cases h
  | some p =>
      rw [hf] at h
      have hall : ∀ q ∈ sourcesMap, q.2 = "aclweb" ∨ q.2 = "dblp" := by decide
      have hsrc : p.2 = src := Option.some.inj h
      rw [← hsrc]
      exact hall p (List.mem_of_find?_eq_some hf)

theorem resolve1_some_props (c : String) (y : Nat) (q : Query)
    (h : resolve1 c y = some q) :
    q.conference = pyLower c ∧ q.year = toString y
      ∧ sourceOf q.conference = some q.source := by
  unfold resolve1 at h
  cases hs : sourceOf (pyLower c) with
  | none =>
      simp only [hs] at h
      exact Option.noConfusion h
  | some src =>
      cases hu : urlFor src (pyLower c) (toString y) with
      | none =>
          simp only [hs, hu] at h
          exact Option.noConfusion h
      | some u =>
          simp only [hs, hu, Option.some.injEq] at h
          rw [← h]
          exact ⟨rfl, rfl, hs⟩

theorem urlFor_isSome (src conf yr : String)
    (h : src = "aclweb" ∨ src = "dblp") : ∃ u, urlFor src conf yr = some u := by
  rcases h with rfl | rfl
  · exact ⟨_, rfl⟩
  · exact ⟨_, rfl⟩

theorem resolve1_isSome_of (c : String) (y : Nat)
    (h : (sourceOf (pyLower c)).isSome = true) :
    ∃ q, resolve1 c y = some q
      ∧ q.conference = pyLower c ∧ q.year = toString y := by
  obtain ⟨src, hs⟩ := Option.isSome_iff_exists.mp h
  obtain ⟨u, hu⟩ := urlFor_isSome src (pyLower c) (toString y)
    (sourceOf_mem (pyLower c) src hs)
  refine ⟨⟨pyLower c, toString y, src, u⟩, ?_, rfl, rfl⟩
  simp only [resolve1, hs, hu]

set_option maxRecDepth 40000 in
/-- C4: query resolution never fails on an unknown conference name: every
query in the output was successfully looked up in the catalog, an all-invalid
(or empty) input yields an empty query sequence (so the fetch loop performs
no fetch), the pair (["acl", "bogus"], [2019]) resolves to exactly the one
query for acl, and "bogus" produces the diagnostic lines listing the valid
conference ids grouped by category. -/
theorem resolveQueries_error_handling (conference : List String) (year : List Nat) :
    (∀ q ∈ resolveQueries conference year, sourceOf q.conference = some q.source)
      ∧ ((∀ c ∈ conference, sourceOf (pyLower c) = none) →
          resolveQueries conference year = [])
      ∧ resolveQueries [] year = []
      ∧ resolveQueries ["acl", "bogus"] [2019]
          = [⟨"acl", "2019", "aclweb",
              "https://aclweb.org/anthology/events/acl-2019"⟩]
      ∧ (resolveAll ["acl", "bogus"] [2019]).2 = errLines "bogus" := by
  refine ⟨?_, ?_, rfl, by decide, by decide⟩
  · intro q hq
    rw [resolveQueries_eq_filterMap] at hq
    obtain ⟨p, _, hp⟩ := List.mem_filterMap.mp hq
    exact (resolve1_some_props p.1 p.2 q hp).2.2
  · intro h
    rw [resolveQueries_eq_filterMap]
    rw [List.filterMap_eq_nil_iff]
    intro p hp
    obtain ⟨c, hc, hpc⟩ := List.mem_flatMap.mp hp
    obtain ⟨y, _, hpy⟩ := List.mem_map.mp hpc
    have hp1 : p.1 = c := by rw [← hpy]
    rw [hp1]
    exact resolve1_eq_none c p.2 (h c hc)

/-- Witness for C4: an all-invalid input resolves to no queries at all. -/
theorem resolveQueries_error_handling_witness :
    resolveQueries ["bogus"] [2019] = [] :=
  (resolveQueries_error_handling ["bogus"] [2019]).2.1 (by decide)

theorem resolve_year_map (c : String)
    (h : (sourceOf (pyLower c)).isSome = true) :
    ∀ year : List Nat,
      ((year.map (fun y => (c, y))).filterMap
          (fun p => resolve1 p.1 p.2)).map (fun q => (q.conference, q.year))
        = year.map (fun y => (pyLower c, toString y)) := by
  intro year
  induction year with
  | nil => rfl
  | cons y ys ih =>
      obtain ⟨q, hq, hconf, hyr⟩ := resolve1_isSome_of c y h
      rw [List.map_cons,
        @List.filterMap_cons_some (String × Nat) Query
          (fun p => resolve1 p.1 p.2) (c, y) (ys.map (fun y => (c, y))) q hq,
        List.map_cons, ih, List.map_cons, hconf, hyr]

theorem resolveQueries_proj (year : List Nat) :
    ∀ conference : List String,
      (∀ c ∈ conference, (sourceOf (pyLower c)).isSome = true) →
      (resolveQueries conference year).map (fun q => (q.conference, q.year))
        = conference.flatMap (fun c => year.map (fun y => (pyLower c, toString y))) := by
  intro conference
  induction conference with
  | nil => intro _; rfl
  | cons c cs ih =>
      intro h
      rw [resolveQueries_eq_filterMap, List.flatMap_cons, List.filterMap_append,
        List.map_append, List.flatMap_cons,
        resolve_year_map c (h c (List.mem_cons_self c cs)) year]
      congr 1
      rw [← resolveQueries_eq_filterMap]
      exact ih (fun x hx => h x (List.mem_cons_of_mem c hx))

/-- C5: when every conference name is known, resolution yields the full cross
product, conference outer loop, year inner loop, input order preserved, with
conference ids case-folded; conferences ["acl", "naacl"] with years
[2018, 2019] yield exactly the four queries (acl,2018), (acl,2019),
(naacl,2018), (naacl,2019) in that order. -/
theorem resolveQueries_cross_product (conference : List String) (year : List Nat)
    (h : ∀ c ∈ conference, (sourceOf (pyLower c)).isSome = true) :
    (resolveQueries conference year).map (fun q => (q.conference, q.year))
        = conference.flatMap (fun c => year.map (fun y => (pyLower c, toString y)))
      ∧ resolveQueries ["acl", "naacl"] [2018, 2019]
          = [⟨"acl", "2018", "aclweb",
               "https://aclweb.org/anthology/events/acl-2018"⟩,
             ⟨"acl", "2019", "aclweb",
               "https://aclweb.org/anthology/events/acl-2019"⟩,
             ⟨"naacl", "2018", "aclweb",
               "https://aclweb.org/anthology/events/naacl-2018"⟩,
             ⟨"naacl", "2019", "aclweb",
               "https://aclweb.org/anthology/events/naacl-2019"⟩] :=
  ⟨resolveQueries_proj year conference h, by decide⟩

/-- Witness for C5 at conferences ["acl", "naacl"], years [2018, 2019]. -/
theorem resolveQueries_cross_product_witness :
    (resolveQueries ["acl", "naacl"] [2018, 2019]).map
        (fun q => (q.conference, q.year))
      = [("acl", "2018"), ("acl", "2019"), ("naacl", "2018"), ("naacl", "2019")] := by
  have h := resolveQueries_cross_product ["acl", "naacl"] [2018, 2019] (by decide)
  rw [h.1]
  decide

/- The output formatter of `parse` (src/medical/ai.py lines 211-232). -/

/-- The run configuration flags (the argparse namespace fields read by
`parse`; `markdown`/`html` and `title_only`/`url_only` are mutually
exclusive argument groups at the CLI). -/
structure Config where
  quiet : Bool
  copy : Bool
  all : Bool
  markdown : Bool
  html : Bool
  title_only : Bool
  url_only : Bool

/-- Python `title.replace('"', "'")`: double quotes become single quotes. -/
def replaceQuotes (s : String) : String :=
  ⟨s.data.map (fun c => if c = '"' then Char.ofNat 39 else c)⟩

/-- The nonempty branch of the output formatter (lines 214-230). -/
def formatNonempty (cfg : Config) (articles : List Article) : String :=
  if cfg.markdown then
    if cfg.url_only then
      String.intercalate "\n"
        (articles.map (fun a => "[" ++ a.url ++ "](" ++ a.url ++ ")"))
    else
      String.intercalate "\n"
        (articles.map (fun a => "[" ++ a.title ++ "](" ++ a.url ++ ")"))
  else if cfg.html then
    if cfg.url_only then
      String.intercalate "<br/>\n"
        (articles.map (fun a =>
          "<a href=\"" ++ a.url ++ "\" target=\"_blank\" alt=\"" ++ a.url
            ++ "\">" ++ a.url ++ "</a>"))
    else
      String.intercalate "<br/>\n"
        (articles.map (fun a =>
          "<a href=\"" ++ a.url ++ "\" target=\"_blank\" alt=\""
            ++ replaceQuotes a.title ++ "\">" ++ replaceQuotes a.title
            ++ "</a>"))
  else
    if cfg.title_only then
      String.intercalate "\n" (articles.map (fun a => a.title))
    else if cfg.url_only then
      String.intercalate "\n" (articles.map (fun a => a.url))
    else
      String.intercalate "\n\n"
        (articles.map (fun a => a.title ++ "\n" ++ a.url))

/-- The output formatter (lines 211-232): Python `if articles:` falls back to
the fixed message on an empty record sequence. -/
def formatOutput (cfg : Config) (articles : List Article) : String :=
  match articles with
  | [] => "No medical-like AI papers found."
  | _ :: _ => formatNonempty cfg articles

/-- C6: with an empty record sequence the formatter returns the literal
message "No medical-like AI papers found." for every combination of mode
flags. -/
theorem formatOutput_empty (cfg : Config) :
    formatOutput cfg [] = "No medical-like AI papers found." := rfl

/-- C7: with records present and markdown mode active, the formatter renders
"[title](url)" lines joined by newline when URL-only is not set,
"[url](url)" lines when URL-only is set, and the title-only flag has no
effect on the markdown output. -/
theorem formatOutput_markdown (cfg : Config) (articles : List Article)
    (hne : articles ≠ []) (hm : cfg.markdown = true) :
    (cfg.url_only = false →
        formatOutput cfg articles
          = String.intercalate "\n"
              (articles.map (fun a => "[" ++ a.title ++ "](" ++ a.url ++ ")")))
      ∧ (cfg.url_only = true →
          formatOutput cfg articles
            = String.intercalate "\n"
                (articles.map (fun a => "[" ++ a.url ++ "](" ++ a.url ++ ")")))
      ∧ (∀ b, formatOutput
            (Config.mk cfg.quiet cfg.copy cfg.all cfg.markdown cfg.html b
              cfg.url_only) articles
          = formatOutput cfg articles) := by
  obtain ⟨a, as, rfl⟩ : ∃ a as, articles = a :: as := by
    cases articles with
    | nil => exact absurd rfl hne
    | cons a as => exact ⟨a, as, rfl⟩
  refine ⟨fun h => ?_, fun h => ?_, fun b => ?_⟩
  · simp [formatOutput, formatNonempty, hm, h]
  · simp [formatOutput, formatNonempty, hm, h]
  · simp [formatOutput, formatNonempty, hm]

/-- Witness for C7: one record with title "T" and URL "U" renders in markdown
full mode as "[T](U)". -/
theorem formatOutput_markdown_witness :
    formatOutput (Config.mk false false false true false false false)
        [Article.mk "T" "U" "acl" "2019"]
      = "[T](U)" := by
  have h := formatOutput_markdown
    (Config.mk false false false true false false false)
    [Article.mk "T" "U" "acl" "2019"] (List.cons_ne_nil _ _) rfl
  rw [h.1 rfl]
  decide

end MedicalAI
